import Mathlib

/-
  Verification development for the audio-filters crate (TPT state-variable
  filter bands).  The scalar generic implementation (`units.rs`,
  `first_order_iir.rs`, `second_order_iir.rs`, `filter_band.rs`) is embedded
  shallowly: the generic floating-point parameter `T: FP` is modelled by the
  real numbers, Rust arrays `[_; MAX_POLE_COUNT]` by total functions out of
  the natural index, and the stateful `process` calls by explicit state
  passing.  The source stores the selected per-sample routine as a function
  pointer chosen by `get_process` from a `ProcessType` tag; here the band
  stores the tag and `runProcess` performs the same dispatch.
-/

namespace AudioFilters

noncomputable section

/-- MAX_POLE_COUNT from lib.rs. -/
def MAX_POLE_COUNT : ℕ := 32

/-- FloatConst FRAC_1_SQRT_2 used by `filter_type_1` in filter_band.rs. -/
def FRAC_1_SQRT_2 : ℝ := 1 / Real.sqrt 2

/-- Source `bandwidth_to_q` from units.rs (called `bw_to_q` at the call site in
filter_band.rs): `1 / (2 * sinh (ln 2 / 2 * bandwidth))`; the `f0` and `fs`
arguments are ignored by the source. -/
def bw_to_q (bw _f0 _fs : ℝ) : ℝ :=
  1 / (2 * Real.sinh (Real.log 2 / 2 * bw))

/-- Source `butterworth_cascade_q` from units.rs.  The source casts the integer
order into the float type and tests parity there (`filter_order % N2 == N0`);
since the order is a small integer the cast is exact and the test agrees
with natural-number parity, which is used here.  In the odd branch the
source mutates `pole` to `pole - 1` (usize subtraction, guarded by the
early return for `pole == 0`), mirrored by truncated subtraction. -/
def butterworth_cascade_q (filter_order pole : ℕ) : ℝ :=
  let pole_inc : ℝ := Real.pi / (filter_order : ℝ)
  if filter_order % 2 = 0 then
    1 / (2 * Real.cos (pole_inc * 0.5 + (pole : ℝ) * pole_inc))
  else if pole = 0 then
    0.5
  else
    1 / (2 * Real.cos (pole_inc + (((pole - 1 : ℕ) : ℝ)) * pole_inc))

/-! ## First-order stage (first_order_iir.rs) -/

/-- IIR1Coefficients from first_order_iir.rs. -/
@[ext]
structure IIR1Coefficients where
  a : ℝ
  g : ℝ
  a1 : ℝ
  m0 : ℝ
  m1 : ℝ
  fs : ℝ

namespace IIR1Coefficients

/-- Modelled from the spec: `IIR1Coefficients::empty` is called by
filter_band.rs but is absent from the copy of first_order_iir.rs in the
sources; following `IIR2Coefficients::empty` and the spec lifecycle section
(default/identity coefficient set) it is the zero-filled record. -/
def empty : IIR1Coefficients :=
  { a := 0, g := 0, a1 := 0, m0 := 0, m1 := 0, fs := 0 }

/-- Source `IIR1Coefficients::lowpass`. -/
def lowpass (f0 fs : ℝ) : IIR1Coefficients :=
  let f0 := min f0 (fs * 0.5)
  let a : ℝ := 1
  let g := Real.tan (Real.pi * f0 / fs)
  let a1 := g / (1 + g)
  { a := a, g := g, a1 := a1, m0 := 0, m1 := 1, fs := fs }

/-- Source `IIR1Coefficients::highpass`. -/
def highpass (f0 fs : ℝ) : IIR1Coefficients :=
  let f0 := min f0 (fs * 0.5)
  let a : ℝ := 1
  let g := Real.tan (Real.pi * f0 / fs)
  let a1 := g / (1 + g)
  { a := a, g := g, a1 := a1, m0 := 1, m1 := -1, fs := fs }

/-- Source `IIR1Coefficients::allpass`. -/
def allpass (f0 fs : ℝ) : IIR1Coefficients :=
  let f0 := min f0 (fs * 0.5)
  let a : ℝ := 1
  let g := Real.tan (Real.pi * f0 / fs)
  let a1 := g / (1 + g)
  { a := a, g := g, a1 := a1, m0 := 1, m1 := -2, fs := fs }

/-- Source `IIR1Coefficients::lowshelf`. -/
def lowshelf (f0 db_gain fs : ℝ) : IIR1Coefficients :=
  let f0 := min f0 (fs * 0.5)
  let a : ℝ := (10 : ℝ) ^ (db_gain / 20)
  let g := Real.tan (Real.pi * f0 / fs) / Real.sqrt a
  let a1 := g / (1 + g)
  { a := a, g := g, a1 := a1, m0 := 1, m1 := a - 1, fs := fs }

/-- Source `IIR1Coefficients::highshelf`. -/
def highshelf (f0 db_gain fs : ℝ) : IIR1Coefficients :=
  let f0 := min f0 (fs * 0.5)
  let a : ℝ := (10 : ℝ) ^ (db_gain / 20)
  let g := Real.tan (Real.pi * f0 / fs) * Real.sqrt a
  let a1 := g / (1 + g)
  { a := a, g := g, a1 := a1, m0 := a, m1 := 1 - a, fs := fs }

/-- Source `IIR1Coefficients::get_bode_sample`. -/
def get_bode_sample (c : IIR1Coefficients) (z : ℂ) : ℂ :=
  let denominator := (c.g : ℂ) + z * ((c.g : ℂ) - 1) + 1
  (c.m0 : ℂ) + ((c.m1 : ℂ) * (c.g : ℂ) * (z + 1)) / denominator

end IIR1Coefficients

/-- IIR1 from first_order_iir.rs: one integrator state plus coefficients. -/
@[ext]
structure IIR1 where
  ic1eq : ℝ
  coeffs : IIR1Coefficients

namespace IIR1

/-- Source `IIR1::new`: zero state. -/
def new (coefficients : IIR1Coefficients) : IIR1 :=
  { ic1eq := 0, coeffs := coefficients }

/-- Source `IIR1::process`, with the state passed explicitly: returns the updated
stage and the output sample. -/
def process (f : IIR1) (input : ℝ) : IIR1 × ℝ :=
  let v1 := f.coeffs.a1 * (input - f.ic1eq)
  let v2 := v1 + f.ic1eq
  ({ f with ic1eq := v2 + v1 }, f.coeffs.m0 * input + f.coeffs.m1 * v2)

/-- Source `IIR1::update_coefficients`. -/
def update_coefficients (f : IIR1) (new_coefficients : IIR1Coefficients) : IIR1 :=
  { f with coeffs := new_coefficients }

end IIR1

/-! ## Second-order stage (second_order_iir.rs) -/

/-- IIR2Coefficients from second_order_iir.rs. -/
@[ext]
structure IIR2Coefficients where
  a : ℝ
  g : ℝ
  gpow2 : ℝ
  k : ℝ
  a1 : ℝ
  a2 : ℝ
  a3 : ℝ
  m0 : ℝ
  m1 : ℝ
  m2 : ℝ
  fs : ℝ

/-- ZSample from units.rs: the unit-circle sample and its square.  The
first power is called `pow1` in units.rs and `z` at the first-order call
site in filter_band.rs. -/
structure ZSample where
  pow1 : ℂ
  pow2 : ℂ

namespace IIR2Coefficients

/-- Source `IIR2Coefficients::empty`. -/
def empty : IIR2Coefficients :=
  { a := 0, g := 0, gpow2 := 0, k := 0, a1 := 0, a2 := 0, a3 := 0,
    m0 := 0, m1 := 0, m2 := 0, fs := 0 }

/-- Source `IIR2Coefficients::get_bode_sample`. -/
def get_bode_sample (c : IIR2Coefficients) (z : ZSample) : ℂ :=
  let denominator := ((c.gpow2 + c.g * c.k + 1 : ℝ) : ℂ)
    + 2 * ((c.gpow2 - 1 : ℝ) : ℂ) * z.pow1
    + ((c.gpow2 - c.g * c.k + 1 : ℝ) : ℂ) * z.pow2
  (c.m0 : ℂ) + ((c.m1 : ℂ) * (c.g : ℂ) * (1 - z.pow2)
    + (c.m2 : ℂ) * (c.gpow2 : ℂ) * (1 + 2 * z.pow1 + z.pow2)) / denominator

/-- Source `IIR2Coefficients::lowpass`. -/
def lowpass (f0 q_value _db_gain fs : ℝ) : IIR2Coefficients :=
  let f0 := min f0 (fs * 0.5)
  let a : ℝ := 1
  let g := Real.tan (Real.pi * f0 / fs)
  let k := 1 / q_value
  let a1 := 1 / (1 + g * (g + k))
  let a2 := g * a1
  let a3 := g * a2
  { a := a, g := g, gpow2 := g * g, k := k, a1 := a1, a2 := a2, a3 := a3,
    m0 := 0, m1 := 0, m2 := 1, fs := fs }

/-- Source `IIR2Coefficients::highpass`. -/
def highpass (f0 q_value _db_gain fs : ℝ) : IIR2Coefficients :=
  let f0 := min f0 (fs * 0.5)
  let a : ℝ := 1
  let g := Real.tan (Real.pi * f0 / fs)
  let k := 1 / q_value
  let a1 := 1 / (1 + g * (g + k))
  let a2 := g * a1
  let a3 := g * a2
  { a := a, g := g, gpow2 := g * g, k := k, a1 := a1, a2 := a2, a3 := a3,
    m0 := 1, m1 := -k, m2 := -1, fs := fs }

/-- Source `IIR2Coefficients::bandpass`. -/
def bandpass (f0 q_value _db_gain fs : ℝ) : IIR2Coefficients :=
  let f0 := min f0 (fs * 0.5)
  let a : ℝ := 1
  let g := Real.tan (Real.pi * f0 / fs)
  let k := 1 / q_value
  let a1 := 1 / (1 + g * (g + k))
  let a2 := g * a1
  let a3 := g * a2
  { a := a, g := g, gpow2 := g * g, k := k, a1 := a1, a2 := a2, a3 := a3,
    m0 := 0, m1 := 1, m2 := 0, fs := fs }

/-- Source `IIR2Coefficients::notch`. -/
def notch (f0 q_value _db_gain fs : ℝ) : IIR2Coefficients :=
  let f0 := min f0 (fs * 0.5)
  let a : ℝ := 1
  let g := Real.tan (Real.pi * f0 / fs)
  let k := 1 / q_value
  let a1 := 1 / (1 + g * (g + k))
  let a2 := g * a1
  let a3 := g * a2
  { a := a, g := g, gpow2 := g * g, k := k, a1 := a1, a2 := a2, a3 := a3,
    m0 := 1, m1 := -k, m2 := 0, fs := fs }

/-- Source `IIR2Coefficients::allpass`. -/
def allpass (f0 q_value _db_gain fs : ℝ) : IIR2Coefficients :=
  let f0 := min f0 (fs * 0.5)
  let a : ℝ := 1
  let g := Real.tan (Real.pi * f0 / fs)
  let k := 1 / q_value
  let a1 := 1 / (1 + g * (g + k))
  let a2 := g * a1
  let a3 := g * a2
  { a := a, g := g, gpow2 := g * g, k := k, a1 := a1, a2 := a2, a3 := a3,
    m0 := 1, m1 := -2 * k, m2 := 0, fs := fs }

/-- Source `IIR2Coefficients::lowshelf`. -/
def lowshelf (f0 q_value db_gain fs : ℝ) : IIR2Coefficients :=
  let f0 := min f0 (fs * 0.5)
  let a : ℝ := (10 : ℝ) ^ (db_gain / 40)
  let g := Real.tan (Real.pi * f0 / fs) / Real.sqrt a
  let k := 1 / q_value
  let a1 := 1 / (1 + g * (g + k))
  let a2 := g * a1
  let a3 := g * a2
  { a := a, g := g, gpow2 := g * g, k := k, a1 := a1, a2 := a2, a3 := a3,
    m0 := 1, m1 := k * (a - 1), m2 := a * a - 1, fs := fs }

/-- Source `IIR2Coefficients::highshelf`. -/
def highshelf (f0 q_value db_gain fs : ℝ) : IIR2Coefficients :=
  let f0 := min f0 (fs * 0.5)
  let a : ℝ := (10 : ℝ) ^ (db_gain / 40)
  let g := Real.tan (Real.pi * f0 / fs) * Real.sqrt a
  let k := 1 / q_value
  let a1 := 1 / (1 + g * (g + k))
  let a2 := g * a1
  let a3 := g * a2
  { a := a, g := g, gpow2 := g * g, k := k, a1 := a1, a2 := a2, a3 := a3,
    m0 := a * a, m1 := k * (1 - a) * a, m2 := 1 - a * a, fs := fs }

/-- Source `IIR2Coefficients::bell`. -/
def bell (f0 q_value db_gain fs : ℝ) : IIR2Coefficients :=
  let f0 := min f0 (fs * 0.5)
  let a : ℝ := (10 : ℝ) ^ (db_gain / 40)
  let g := Real.tan (Real.pi * f0 / fs)
  let k := 1 / (q_value * a)
  let a1 := 1 / (1 + g * (g + k))
  let a2 := g * a1
  let a3 := g * a2
  { a := a, g := g, gpow2 := g * g, k := k, a1 := a1, a2 := a2, a3 := a3,
    m0 := 1, m1 := k * (a * a - 1), m2 := 0, fs := fs }

end IIR2Coefficients

/-- IIR2 from second_order_iir.rs: two integrator states plus coefficients. -/
@[ext]
structure IIR2 where
  ic1eq : ℝ
  ic2eq : ℝ
  coeffs : IIR2Coefficients

namespace IIR2

/-- Source `IIR2::new`: zero state. -/
def new (coefficients : IIR2Coefficients) : IIR2 :=
  { ic1eq := 0, ic2eq := 0, coeffs := coefficients }

/-- Source `IIR2::process`, with the state passed explicitly: returns the updated
stage and the output sample. -/
def process (f : IIR2) (input : ℝ) : IIR2 × ℝ :=
  let v3 := input - f.ic2eq
  let v1 := f.coeffs.a1 * f.ic1eq + f.coeffs.a2 * v3
  let v2 := f.ic2eq + f.coeffs.a2 * f.ic1eq + f.coeffs.a3 * v3
  ({ f with ic1eq := 2 * v1 - f.ic1eq, ic2eq := 2 * v2 - f.ic2eq },
    f.coeffs.m0 * input + f.coeffs.m1 * v1 + f.coeffs.m2 * v2)

/-- Source `IIR2::update_coefficients`. -/
def update_coefficients (f : IIR2) (new_coefficients : IIR2Coefficients) : IIR2 :=
  { f with coeffs := new_coefficients }

end IIR2

/-! ## Filter band (filter_band.rs) -/

/-- ProcessType from filter_band.rs. -/
inductive ProcessType where
  | ProcessIIR1Only : ProcessType
  | ProcessIIR2Only : ProcessType
  | ProcessEvenOrderCascade : ProcessType
  | ProcessOddOrderCascade : ProcessType
deriving DecidableEq

/-- FilterBandCoefficients from filter_band.rs.  The fixed array
`[IIR2Coefficients; MAX_POLE_COUNT]` is modelled as a total function on the
index; only indices below `MAX_POLE_COUNT` correspond to array slots. -/
@[ext]
structure FilterBandCoefficients where
  iir1 : IIR1Coefficients
  iir2 : ℕ → IIR2Coefficients
  process : ProcessType
  iir2_cascade_count : ℕ
  iir1_enabled : Bool

/-- The cascade array as built by the `for` loop of `filter_type_1`:
starting from `[IIR2Coefficients::empty(); MAX_POLE_COUNT]`, slot `i` is
overwritten with the i-th computed stage for `i` below the cascade count. -/
def fillCascade (g : ℕ → IIR2Coefficients) : ℕ → (ℕ → IIR2Coefficients)
  | 0 => fun _ => IIR2Coefficients.empty
  | n + 1 => Function.update (fillCascade g n) n (g n)

namespace FilterBandCoefficients

/-- Source `FilterBandCoefficients::get_bode_sample`: chained multiplication over
the active stages, written with the same loop ranges as the source
(`0..count` after the first-order response when `iir1_enabled`, otherwise
stage 0 followed by `1..count`). -/
def get_bode_sample (c : FilterBandCoefficients) (z : ZSample) : ℂ :=
  if c.iir1_enabled then
    (List.range c.iir2_cascade_count).foldl
      (fun y i => y * (c.iir2 i).get_bode_sample z)
      (c.iir1.get_bode_sample z.pow1)
  else
    (List.range' 1 (c.iir2_cascade_count - 1)).foldl
      (fun y i => y * (c.iir2 i).get_bode_sample z)
      ((c.iir2 0).get_bode_sample z)

/-- The tail of `FilterBandCoefficients::filter_type_1` shared by the odd
branch with slope above one and by the even branch: doubles the per-stage
gain, derives the Butterworth Q ladder and fills the cascade array. -/
def filter_type_1_tail (f0 bw : ℝ) (u_slope start_pole : ℕ) (partial_gain fs : ℝ)
    (iir2_func : ℝ → ℝ → ℝ → ℝ → IIR2Coefficients)
    (iir1 : IIR1Coefficients) (process : ProcessType) : FilterBandCoefficients :=
  let partial_gain := partial_gain * 2
  let q_value := bw_to_q bw f0 fs
  let q_offset := q_value * FRAC_1_SQRT_2
  let iir2_cascade_count := (u_slope - start_pole) / 2
  { iir1 := iir1,
    iir2 := fillCascade
      (fun i => iir2_func f0 (butterworth_cascade_q u_slope (i + start_pole) * q_offset)
        partial_gain fs) iir2_cascade_count,
    process := process,
    iir2_cascade_count := iir2_cascade_count,
    iir1_enabled := u_slope % 2 == 1 }

/-- Source `FilterBandCoefficients::filter_type_1`.  The source receives the slope
as a float and casts it to usize; the integer order is taken directly here.
`odd_order`, `iir1_enabled` and `start_pole` are inlined at their use
sites. -/
def filter_type_1 (f0 bw : ℝ) (u_slope : ℕ) (gain fs : ℝ)
    (iir1_func : ℝ → ℝ → ℝ → IIR1Coefficients)
    (iir2_func : ℝ → ℝ → ℝ → ℝ → IIR2Coefficients) : FilterBandCoefficients :=
  if u_slope % 2 == 1 then
    let iir1 := iir1_func f0 (gain / (u_slope : ℝ)) fs
    if u_slope ≤ 1 then
      { iir1 := iir1, iir2 := fun _ => IIR2Coefficients.empty,
        process := ProcessType.ProcessIIR1Only,
        iir2_cascade_count := 0, iir1_enabled := true }
    else
      filter_type_1_tail f0 bw u_slope 1 (gain / (u_slope : ℝ)) fs iir2_func iir1
        ProcessType.ProcessOddOrderCascade
  else
    filter_type_1_tail f0 bw u_slope 0 (gain / (u_slope : ℝ)) fs iir2_func
      IIR1Coefficients.empty ProcessType.ProcessEvenOrderCascade

end FilterBandCoefficients

/-- FilterBand from filter_band.rs.  The source stores the routine selected
by `get_process` as a function pointer; the `ProcessType` tag it was
selected from is stored here and `runProcess` performs the dispatch. -/
@[ext]
structure FilterBand where
  iir1 : IIR1
  iir2 : ℕ → IIR2
  iir2_cascade_count : ℕ
  process : ProcessType

namespace FilterBand

/-- Source `FilterBand::from`: every slot of the stage array is initialised from
the coefficients of slot 0 (`[IIR2::new(coeffs.iir2[0]); MAX_POLE_COUNT]`). -/
def «from» (coeffs : FilterBandCoefficients) : FilterBand :=
  { iir1 := IIR1.new coeffs.iir1,
    iir2 := fun _ => IIR2.new (coeffs.iir2 0),
    iir2_cascade_count := coeffs.iir2_cascade_count,
    process := coeffs.process }

/-- Source `FilterBand::process_iir1_only`. -/
def process_iir1_only (b : FilterBand) (x : ℝ) : FilterBand × ℝ :=
  let r := b.iir1.process x
  ({ b with iir1 := r.1 }, r.2)

/-- Source `FilterBand::process_iir2_only`. -/
def process_iir2_only (b : FilterBand) (x : ℝ) : FilterBand × ℝ :=
  let r := (b.iir2 0).process x
  ({ b with iir2 := Function.update b.iir2 0 r.1 }, r.2)

/-- The `for i in 0..n { x = self.iir2[i].process(x) }` loop shared by the
cascade routines: stages `0` to `n - 1` are run in ascending index order,
each one updating its own slot of the stage array. -/
def cascadeUpTo (b : FilterBand) (x : ℝ) : ℕ → FilterBand × ℝ
  | 0 => (b, x)
  | n + 1 =>
    let p := cascadeUpTo b x n
    let r := (p.1.iir2 n).process p.2
    ({ p.1 with iir2 := Function.update p.1.iir2 n r.1 }, r.2)

/-- Source `FilterBand::process_even_order_cascade`. -/
def process_even_order_cascade (b : FilterBand) (x : ℝ) : FilterBand × ℝ :=
  cascadeUpTo b x b.iir2_cascade_count

/-- Source `FilterBand::process_odd_order_cascade`. -/
def process_odd_order_cascade (b : FilterBand) (x : ℝ) : FilterBand × ℝ :=
  let r := b.iir1.process x
  cascadeUpTo { b with iir1 := r.1 } r.2 b.iir2_cascade_count

/-- The dispatch performed by the function pointer that
`FilterBand::get_process` selects from the `ProcessType` tag. -/
def runProcess (b : FilterBand) (x : ℝ) : FilterBand × ℝ :=
  match b.process with
  | ProcessType.ProcessIIR1Only => b.process_iir1_only x
  | ProcessType.ProcessIIR2Only => b.process_iir2_only x
  | ProcessType.ProcessEvenOrderCascade => b.process_even_order_cascade x
  | ProcessType.ProcessOddOrderCascade => b.process_odd_order_cascade x

/-- One step of the spec-side cascade: run stage `i` on the running sample
and store the updated stage back into slot `i`. -/
def specStep (p : FilterBand × ℝ) (i : ℕ) : FilterBand × ℝ :=
  let r := (p.1.iir2 i).process p.2
  ({ p.1 with iir2 := Function.update p.1.iir2 i r.1 }, r.2)

/-- The per-sample routine as the spec words it: dispatch strictly by the
pre-selected processing mode with no per-sample kind or order branching;
OddOrderCascade feeds the input through the first-order stage and then
through `iir2_cascade_count` second-order stages in array order starting at
index 0, EvenOrderCascade applies only those second-order stages,
SecondOrderOnly applies stage 0 exactly once, FirstOrderOnly applies only
the first-order stage. -/
def specDispatch (b : FilterBand) (x : ℝ) : FilterBand × ℝ :=
  match b.process with
  | ProcessType.ProcessIIR1Only =>
    let r := b.iir1.process x
    ({ b with iir1 := r.1 }, r.2)
  | ProcessType.ProcessIIR2Only => specStep (b, x) 0
  | ProcessType.ProcessEvenOrderCascade =>
    (List.range b.iir2_cascade_count).foldl specStep (b, x)
  | ProcessType.ProcessOddOrderCascade =>
    let r := b.iir1.process x
    (List.range b.iir2_cascade_count).foldl specStep ({ b with iir1 := r.1 }, r.2)

/-- Source `FilterBand::update`: overwrites every stage coefficient set (the
source zips the two full arrays), the first-order coefficients, the cascade
count and the selected routine; it performs no comparison with the values
already installed. -/
def update (b : FilterBand) (coeffs : FilterBandCoefficients) : FilterBand :=
  { iir1 := b.iir1.update_coefficients coeffs.iir1,
    iir2 := fun i => (b.iir2 i).update_coefficients (coeffs.iir2 i),
    iir2_cascade_count := coeffs.iir2_cascade_count,
    process := coeffs.process }

end FilterBand

/-! ## Concrete sample values used by witnesses and counterexamples -/

/-- A neutral coefficient set used to instantiate universally quantified
theorems at a concrete input. -/
def sampleCoeffs : FilterBandCoefficients :=
  { iir1 := IIR1Coefficients.empty,
    iir2 := fun _ => IIR2Coefficients.empty,
    process := ProcessType.ProcessIIR2Only,
    iir2_cascade_count := 0,
    iir1_enabled := false }

/-- A stage-coefficient set differing from `IIR2Coefficients.empty` in one
field. -/
def cexStage : IIR2Coefficients :=
  { IIR2Coefficients.empty with a1 := 1 }

/-- A coefficient set whose stage 1 differs from its stage 0, as produced
by any cascade of two stages with distinct Butterworth Q values. -/
def cexCoeffs : FilterBandCoefficients :=
  { iir1 := IIR1Coefficients.empty,
    iir2 := fun i => if i = 1 then cexStage else IIR2Coefficients.empty,
    process := ProcessType.ProcessEvenOrderCascade,
    iir2_cascade_count := 2,
    iir1_enabled := false }

/-! ## Claims -/

/-- Claim C7: one `IIR2::process` call returns
`y = m0*x + m1*v1 + m2*v2` for `v3 = x - ic2eq`,
`v1 = a1*ic1eq + a2*v3`, `v2 = ic2eq + a2*ic1eq + a3*v3`, and replaces
`ic1eq` by `2*v1 - ic1eq` and `ic2eq` by `2*v2 - ic2eq`, the intermediate
values being computed from the incoming state; the coefficients are left
untouched. -/
theorem iir2_process_formula (f : IIR2) (x : ℝ) :
    (f.process x).2
      = f.coeffs.m0 * x
        + f.coeffs.m1 * (f.coeffs.a1 * f.ic1eq + f.coeffs.a2 * (x - f.ic2eq))
        + f.coeffs.m2 * (f.ic2eq + f.coeffs.a2 * f.ic1eq + f.coeffs.a3 * (x - f.ic2eq))
    ∧ (f.process x).1.ic1eq
      = 2 * (f.coeffs.a1 * f.ic1eq + f.coeffs.a2 * (x - f.ic2eq)) - f.ic1eq
    ∧ (f.process x).1.ic2eq
      = 2 * (f.ic2eq + f.coeffs.a2 * f.ic1eq + f.coeffs.a3 * (x - f.ic2eq)) - f.ic2eq
    ∧ (f.process x).1.coeffs = f.coeffs :=
  ⟨rfl, rfl, rfl, rfl⟩

/-- Claim C8: `FilterBand::update` leaves every integrator state unchanged
(the first-order `ic1eq` and every second-order `ic1eq`/`ic2eq`), and
overwrites exactly the per-stage coefficients, the cascade count and the
process selection with the values of the new coefficient set. -/
theorem update_preserves_state (b : FilterBand) (c : FilterBandCoefficients) :
    (b.update c).iir1.ic1eq = b.iir1.ic1eq
    ∧ (∀ i, ((b.update c).iir2 i).ic1eq = (b.iir2 i).ic1eq)
    ∧ (∀ i, ((b.update c).iir2 i).ic2eq = (b.iir2 i).ic2eq)
    ∧ (b.update c).iir1.coeffs = c.iir1
    ∧ (∀ i, ((b.update c).iir2 i).coeffs = c.iir2 i)
    ∧ (b.update c).iir2_cascade_count = c.iir2_cascade_count
    ∧ (b.update c).process = c.process :=
  ⟨rfl, fun _ => rfl, fun _ => rfl, rfl, fun _ => rfl, rfl, rfl⟩

/-- Claim C1 counterexample: `update` is not a no-op on a band whose
installed coefficients were computed from parameters identical to those of
the argument — here the band is literally constructed from the very
coefficient set that is then passed to `update`.  Because `FilterBand::from`
replicates stage 0 into every slot, the first `update` call with the
identical coefficient set rewrites stage 1, so the call is observably not a
no-op. -/
theorem update_after_from_not_noop :
    (FilterBand.«from» cexCoeffs).update cexCoeffs ≠ FilterBand.«from» cexCoeffs := by
  intro h
  have h1 := congrArg (fun b => ((b.iir2 1).coeffs.a1)) h
  simp [FilterBand.update, FilterBand.«from», IIR2.update_coefficients, IIR2.new,
    cexCoeffs, cexStage, IIR2Coefficients.empty] at h1

/-- Claim C1 (amended): `update` performs no comparison with the installed
values and always overwrites, so it is not an early-returning no-op after
construction; what does hold is that a second `update` with the same
coefficient set changes nothing — the band (coefficients, integrator state
and process selection) is identical, hence every subsequent `process` call
produces the same output as if the second call had not happened. -/
theorem update_idempotent (b : FilterBand) (c : FilterBandCoefficients) :
    (b.update c).update c = b.update c
    ∧ ∀ x, ((b.update c).update c).runProcess x = (b.update c).runProcess x :=
  ⟨rfl, fun _ => rfl⟩

/-- Claim C3: `FilterBand::from` fills every one of the MAX_POLE_COUNT
stage slots with the coefficients of stage 0 and zero integrator state; the
distinct per-stage coefficient sets of the argument reach the band only
through a subsequent `update`, which installs slot i of the argument into
stage i. -/
theorem from_splats_stage_zero (c : FilterBandCoefficients) :
    (∀ i, i < MAX_POLE_COUNT → (FilterBand.«from» c).iir2 i = IIR2.new (c.iir2 0))
    ∧ (∀ i, (((FilterBand.«from» c).update c).iir2 i).coeffs = c.iir2 i)
    ∧ (∀ i, (((FilterBand.«from» c).update c).iir2 i).ic1eq = 0
        ∧ (((FilterBand.«from» c).update c).iir2 i).ic2eq = 0) :=
  ⟨fun _ _ => rfl, fun _ => rfl, fun _ => ⟨rfl, rfl⟩⟩

/-- Claim C3 witness: the general theorem applied to a concrete coefficient
set and slot index. -/
theorem from_splats_stage_zero_witness :
    (FilterBand.«from» cexCoeffs).iir2 5 = IIR2.new (cexCoeffs.iir2 0) :=
  (from_splats_stage_zero cexCoeffs).1 5 (by norm_num [MAX_POLE_COUNT])

/-- Source `IIR2::process` writes back the same coefficient record it read. -/
lemma iir2_process_keeps_coeffs (f : IIR2) (x : ℝ) :
    (f.process x).1.coeffs = f.coeffs := rfl

/-- Source `IIR1::process` writes back the same coefficient record it read. -/
lemma iir1_process_keeps_coeffs (f : IIR1) (x : ℝ) :
    (f.process x).1.coeffs = f.coeffs := rfl

/-- Unfolding the cascade loop by its last iteration. -/
lemma cascadeUpTo_succ (b : FilterBand) (x : ℝ) (n : ℕ) :
    FilterBand.cascadeUpTo b x (n + 1)
      = FilterBand.specStep (FilterBand.cascadeUpTo b x n) n := rfl

/-- The source `for` loop over stage indices agrees with a left fold of the
per-stage step over the index list. -/
lemma cascadeUpTo_eq_foldl (b : FilterBand) (x : ℝ) :
    ∀ n, FilterBand.cascadeUpTo b x n
      = (List.range n).foldl FilterBand.specStep (b, x) := by
  intro n
  induction n with
  | zero => rfl
  | succ n ih =>
    rw [cascadeUpTo_succ, ih, List.range_succ, List.foldl_append]
    rfl

/-- Frame conditions of the cascade loop: it never touches the cascade
count, the process selection, the first-order stage, any coefficient
record, or any stage at an index at or beyond the loop bound. -/
lemma cascadeUpTo_frame (b : FilterBand) (x : ℝ) (n : ℕ) :
    (FilterBand.cascadeUpTo b x n).1.iir2_cascade_count = b.iir2_cascade_count
    ∧ (FilterBand.cascadeUpTo b x n).1.process = b.process
    ∧ (FilterBand.cascadeUpTo b x n).1.iir1 = b.iir1
    ∧ (∀ i, ((FilterBand.cascadeUpTo b x n).1.iir2 i).coeffs = (b.iir2 i).coeffs)
    ∧ (∀ i, n ≤ i → (FilterBand.cascadeUpTo b x n).1.iir2 i = b.iir2 i) := by
  induction n with
  | zero => exact ⟨rfl, rfl, rfl, fun _ => rfl, fun _ _ => rfl⟩
  | succ n ih =>
    obtain ⟨h1, h2, h3, h4, h5⟩ := ih
    rw [cascadeUpTo_succ]
    refine ⟨h1, h2, h3, fun i => ?_, fun i hi => ?_⟩
    · show (Function.update (FilterBand.cascadeUpTo b x n).1.iir2 n _ i).coeffs
        = (b.iir2 i).coeffs
      rcases eq_or_ne i n with rfl | hne
      · rw [Function.update_same]
        exact (iir2_process_keeps_coeffs _ _).trans (h4 i)
      · rw [Function.update_noteq hne]
        exact h4 i
    · show Function.update (FilterBand.cascadeUpTo b x n).1.iir2 n _ i = b.iir2 i
      rw [Function.update_noteq (by omega)]
      exact h5 i (by omega)

/-- Claim C5: every `process` call applies exactly the stage sequence of
the pre-selected processing mode, with no per-sample kind or order
branching: OddOrderCascade runs the first-order stage and then the
`iir2_cascade_count` second-order stages in array order from index 0,
EvenOrderCascade runs only those second-order stages, SecondOrderOnly runs
stage 0 exactly once, FirstOrderOnly runs only the first-order stage. -/
theorem runProcess_dispatch (b : FilterBand) (x : ℝ) :
    b.runProcess x = b.specDispatch x := by
  rcases b with ⟨i1, i2, cc, pr⟩
  cases pr
  · rfl
  · rfl
  · exact cascadeUpTo_eq_foldl _ _ _
  · exact cascadeUpTo_eq_foldl _ _ _

/-- Claim C10: a `process` call mutates only the integrator states of the
stages its processing mode runs: the first-order stage is untouched in the
SecondOrderOnly and EvenOrderCascade modes, second-order stages are
untouched at indices the mode does not process, and no call ever modifies
any coefficient record, the cascade count or the process selection. -/
theorem process_frame (b : FilterBand) (x : ℝ) :
    (b.runProcess x).1.iir2_cascade_count = b.iir2_cascade_count
    ∧ (b.runProcess x).1.process = b.process
    ∧ (b.runProcess x).1.iir1.coeffs = b.iir1.coeffs
    ∧ (∀ i, ((b.runProcess x).1.iir2 i).coeffs = (b.iir2 i).coeffs)
    ∧ ((b.process = ProcessType.ProcessIIR2Only
        ∨ b.process = ProcessType.ProcessEvenOrderCascade)
        → (b.runProcess x).1.iir1 = b.iir1)
    ∧ (b.process = ProcessType.ProcessIIR1Only
        → ∀ i, (b.runProcess x).1.iir2 i = b.iir2 i)
    ∧ (b.process = ProcessType.ProcessIIR2Only
        → ∀ i, i ≠ 0 → (b.runProcess x).1.iir2 i = b.iir2 i)
    ∧ ((b.process = ProcessType.ProcessEvenOrderCascade
        ∨ b.process = ProcessType.ProcessOddOrderCascade)
        → ∀ i, b.iir2_cascade_count ≤ i → (b.runProcess x).1.iir2 i = b.iir2 i) := by
  rcases b with ⟨i1, i2, cc, pr⟩
  cases pr
  · refine ⟨rfl, rfl, rfl, fun _ => rfl, ?_, fun _ _ => rfl, ?_, ?_⟩
    · rintro (h | h) <;> exact ProcessType.noConfusion h
    · intro h; exact ProcessType.noConfusion h
    · rintro (h | h) <;> exact ProcessType.noConfusion h
  · refine ⟨rfl, rfl, rfl, fun i => ?_, fun _ => rfl, ?_, ?_, ?_⟩
    · rcases eq_or_ne i 0 with rfl | hne
      · show (Function.update i2 0 _ 0).coeffs = (i2 0).coeffs
        rw [Function.update_same]
        exact iir2_process_keeps_coeffs _ _
      · show (Function.update i2 0 _ i).coeffs = (i2 i).coeffs
        rw [Function.update_noteq hne]
    · intro h; exact ProcessType.noConfusion h
    · intro _ i hi
      show Function.update i2 0 _ i = i2 i
      rw [Function.update_noteq hi]
    · rintro (h | h) <;> exact ProcessType.noConfusion h
  · obtain ⟨h1, h2, h3, h4, h5⟩ :=
      cascadeUpTo_frame ⟨i1, i2, cc, ProcessType.ProcessEvenOrderCascade⟩ x cc
    refine ⟨h1, h2, congrArg IIR1.coeffs h3, h4, fun _ => h3, ?_, ?_,
      fun _ i hi => h5 i hi⟩
    · intro h; exact ProcessType.noConfusion h
    · intro h; exact ProcessType.noConfusion h
  · obtain ⟨h1, h2, h3, h4, h5⟩ :=
      cascadeUpTo_frame
        ⟨(i1.process x).1, i2, cc, ProcessType.ProcessOddOrderCascade⟩
        ((i1.process x).2) cc
    refine ⟨h1, h2, ?_, h4, ?_, ?_, ?_, fun _ i hi => h5 i hi⟩
    · exact (congrArg IIR1.coeffs h3).trans (iir1_process_keeps_coeffs _ _)
    · rintro (h | h) <;> exact ProcessType.noConfusion h
    · intro h; exact ProcessType.noConfusion h
    · intro h; exact ProcessType.noConfusion h

/-- Claim C10 witness: a SecondOrderOnly band leaves the stage at index 3
untouched. -/
theorem process_frame_witness :
    ((FilterBand.«from» sampleCoeffs).runProcess 1).1.iir2 3
      = (FilterBand.«from» sampleCoeffs).iir2 3 := by
  have h := process_frame (FilterBand.«from» sampleCoeffs) 1
  exact h.2.2.2.2.2.2.1 rfl 3 (by norm_num)

/-- A left fold of multiplication over an initial index list is the product
over the corresponding range. -/
lemma foldl_mul_range (f : ℕ → ℂ) (a : ℂ) :
    ∀ n, (List.range n).foldl (fun y i => y * f i) a
      = a * ∏ i ∈ Finset.range n, f i := by
  intro n
  induction n with
  | zero => simp
  | succ n ih =>
    rw [List.range_succ, List.foldl_append]
    simp [ih, Finset.prod_range_succ, mul_assoc]

/-- A left fold of multiplication over the index list starting at one. -/
lemma foldl_mul_range_one (f : ℕ → ℂ) (a : ℂ) :
    ∀ n, (List.range' 1 n).foldl (fun y i => y * f i) a
      = a * ∏ i ∈ Finset.range n, f (i + 1) := by
  intro n
  induction n with
  | zero => simp
  | succ n ih =>
    rw [List.range'_concat, List.foldl_append]
    simp [ih, Finset.prod_range_succ, mul_assoc, Nat.add_comm]

/-- Claim C9: `get_bode_sample` multiplies the complex responses of all and
only the active stages: the first-order response is included exactly when
`iir1_enabled` is set, and the active second-order stages contribute
exactly once each — for a disabled first-order stage these are the stages
below `max 1 iir2_cascade_count`, so a SecondOrderOnly band (cascade count
zero) contributes stage 0 alone. -/
theorem get_bode_sample_product (c : FilterBandCoefficients) (z : ZSample) :
    (c.iir1_enabled = true →
      c.get_bode_sample z
        = c.iir1.get_bode_sample z.pow1
          * ∏ i ∈ Finset.range c.iir2_cascade_count, (c.iir2 i).get_bode_sample z)
    ∧ (c.iir1_enabled = false →
      c.get_bode_sample z
        = ∏ i ∈ Finset.range (max 1 c.iir2_cascade_count),
            (c.iir2 i).get_bode_sample z) := by
  constructor
  · intro h
    simp only [FilterBandCoefficients.get_bode_sample, h, if_true]
    exact foldl_mul_range _ _ _
  · intro h
    simp only [FilterBandCoefficients.get_bode_sample, h, Bool.false_eq_true, if_false]
    have key : ∀ (g : ℕ → ℂ) (k : ℕ),
        (List.range' 1 (k - 1)).foldl (fun y i => y * g i) (g 0)
          = ∏ i ∈ Finset.range (max 1 k), g i := by
      intro g k
      match k with
      | 0 => simp
      | m + 1 =>
        rw [Nat.succ_sub_one, foldl_mul_range_one,
          Nat.max_eq_right (Nat.succ_le_succ (Nat.zero_le m)),
          Finset.prod_range_succ' g m]
        exact mul_comm _ _
    exact key _ _

/-- Claim C9 witness: applied to a concrete SecondOrderOnly coefficient
set. -/
theorem get_bode_sample_product_witness :
    sampleCoeffs.get_bode_sample ⟨1, 1⟩
      = ∏ i ∈ Finset.range (max 1 sampleCoeffs.iir2_cascade_count),
          (sampleCoeffs.iir2 i).get_bode_sample ⟨1, 1⟩ :=
  (get_bode_sample_product sampleCoeffs ⟨1, 1⟩).2 rfl

/-- The loop-built cascade array holds the computed stage at every index
below the loop bound. -/
lemma fillCascade_lt (g : ℕ → IIR2Coefficients) :
    ∀ n i, i < n → fillCascade g n i = g i := by
  intro n
  induction n with
  | zero => intro i hi; exact absurd hi (Nat.not_lt_zero i)
  | succ n ih =>
    intro i hi
    rcases eq_or_ne i n with rfl | hne
    · show Function.update (fillCascade g i) i (g i) i = g i
      rw [Function.update_same]
    · show Function.update (fillCascade g n) n (g n) i = g i
      rw [Function.update_noteq hne]
      exact ih i (by omega)

/-- Claim C4: in the generic cascade builder `filter_type_1` (used by the
low-pass, high-pass, all-pass, low-shelf and high-shelf kinds), an odd
order builds the first-order stage with per-stage gain `gain / order`, and
every second-order stage of the cascade — for odd and even orders alike —
is built with per-stage gain `2 * gain / order` (and with the Butterworth Q
ladder value for its pole). -/
theorem filter_type_1_gain_split (f0 bw : ℝ) (u_slope : ℕ) (gain fs : ℝ)
    (iir1_func : ℝ → ℝ → ℝ → IIR1Coefficients)
    (iir2_func : ℝ → ℝ → ℝ → ℝ → IIR2Coefficients) :
    (u_slope % 2 = 1 →
      (FilterBandCoefficients.filter_type_1 f0 bw u_slope gain fs iir1_func iir2_func).iir1
        = iir1_func f0 (gain / (u_slope : ℝ)) fs)
    ∧ (∀ i, i < (FilterBandCoefficients.filter_type_1 f0 bw u_slope gain fs
          iir1_func iir2_func).iir2_cascade_count →
      (FilterBandCoefficients.filter_type_1 f0 bw u_slope gain fs iir1_func iir2_func).iir2 i
        = iir2_func f0
            (butterworth_cascade_q u_slope (i + (if u_slope % 2 = 1 then 1 else 0))
              * (bw_to_q bw f0 fs * FRAC_1_SQRT_2))
            (2 * gain / (u_slope : ℝ)) fs) := by
  have hgain : gain / (u_slope : ℝ) * 2 = 2 * gain / (u_slope : ℝ) := by ring
  constructor
  · intro h
    have hb : (u_slope % 2 == 1) = true := by simp [h]
    by_cases hle : u_slope ≤ 1
    · simp [FilterBandCoefficients.filter_type_1, hb, hle]
    · simp [FilterBandCoefficients.filter_type_1,
        FilterBandCoefficients.filter_type_1_tail, hb, hle]
  · intro i hi
    by_cases hodd : u_slope % 2 = 1
    · have hb : (u_slope % 2 == 1) = true := by simp [hodd]
      by_cases hle : u_slope ≤ 1
      · simp [FilterBandCoefficients.filter_type_1, hb, hle] at hi
      · simp only [FilterBandCoefficients.filter_type_1,
          FilterBandCoefficients.filter_type_1_tail, hb, if_true, hle, if_false] at hi ⊢
        rw [fillCascade_lt _ _ _ hi, hgain, if_pos hodd]
    · have hb : (u_slope % 2 == 1) = false := by simp [hodd]
      simp only [FilterBandCoefficients.filter_type_1,
        FilterBandCoefficients.filter_type_1_tail, hb, Bool.false_eq_true, if_false] at hi ⊢
      rw [fillCascade_lt _ _ _ hi, hgain, if_neg hodd]

/-- Claim C4 witness: applied at order 3 (odd), where the cascade holds one
second-order stage at pole index 1. -/
theorem filter_type_1_gain_split_witness :
    (FilterBandCoefficients.filter_type_1 1 1 3 6 48000
        (fun _ _ _ => IIR1Coefficients.empty)
        (fun _ _ _ _ => IIR2Coefficients.empty)).iir1
      = (fun _ _ _ => IIR1Coefficients.empty) (1 : ℝ) ((6 : ℝ) / ((3 : ℕ) : ℝ)) (48000 : ℝ) :=
  (filter_type_1_gain_split 1 1 3 6 48000
    (fun _ _ _ => IIR1Coefficients.empty)
    (fun _ _ _ _ => IIR2Coefficients.empty)).1 (by norm_num)

/-- Clamping an already clamped cutoff changes nothing. -/
lemma clamp_idem (f0 fs : ℝ) :
    min (min f0 (fs * 0.5)) (fs * 0.5) = min f0 (fs * 0.5) := by
  rw [min_assoc, min_self]

/-- For a nonnegative sample rate the cutoff clamp sends the sample rate
itself to the Nyquist frequency. -/
lemma clamp_nyquist (fs : ℝ) (h : 0 ≤ fs) :
    min fs (fs * 0.5) = min (fs * 0.5) (fs * 0.5) := by
  rw [min_self]
  exact min_eq_right (by linarith)

/-- Claim C6: every first-order and second-order coefficient constructor
silently clamps the cutoff — the returned record equals the one computed
for `min f0 (fs * 0.5)`, with no error return path — and in particular,
for a nonnegative sample rate, a cutoff equal to the sample rate yields
exactly the coefficients of a cutoff at half the sample rate. -/
theorem coefficient_constructors_clamp (f0 q dbg fs : ℝ) :
    (IIR2Coefficients.lowpass f0 q dbg fs
        = IIR2Coefficients.lowpass (min f0 (fs * 0.5)) q dbg fs
      ∧ IIR2Coefficients.highpass f0 q dbg fs
        = IIR2Coefficients.highpass (min f0 (fs * 0.5)) q dbg fs
      ∧ IIR2Coefficients.bandpass f0 q dbg fs
        = IIR2Coefficients.bandpass (min f0 (fs * 0.5)) q dbg fs
      ∧ IIR2Coefficients.notch f0 q dbg fs
        = IIR2Coefficients.notch (min f0 (fs * 0.5)) q dbg fs
      ∧ IIR2Coefficients.allpass f0 q dbg fs
        = IIR2Coefficients.allpass (min f0 (fs * 0.5)) q dbg fs
      ∧ IIR2Coefficients.lowshelf f0 q dbg fs
        = IIR2Coefficients.lowshelf (min f0 (fs * 0.5)) q dbg fs
      ∧ IIR2Coefficients.highshelf f0 q dbg fs
        = IIR2Coefficients.highshelf (min f0 (fs * 0.5)) q dbg fs
      ∧ IIR2Coefficients.bell f0 q dbg fs
        = IIR2Coefficients.bell (min f0 (fs * 0.5)) q dbg fs
      ∧ IIR1Coefficients.lowpass f0 fs
        = IIR1Coefficients.lowpass (min f0 (fs * 0.5)) fs
      ∧ IIR1Coefficients.highpass f0 fs
        = IIR1Coefficients.highpass (min f0 (fs * 0.5)) fs
      ∧ IIR1Coefficients.allpass f0 fs
        = IIR1Coefficients.allpass (min f0 (fs * 0.5)) fs
      ∧ IIR1Coefficients.lowshelf f0 dbg fs
        = IIR1Coefficients.lowshelf (min f0 (fs * 0.5)) dbg fs
      ∧ IIR1Coefficients.highshelf f0 dbg fs
        = IIR1Coefficients.highshelf (min f0 (fs * 0.5)) dbg fs)
    ∧ (0 ≤ fs →
      IIR2Coefficients.lowpass fs q dbg fs
        = IIR2Coefficients.lowpass (fs * 0.5) q dbg fs
      ∧ IIR2Coefficients.highpass fs q dbg fs
        = IIR2Coefficients.highpass (fs * 0.5) q dbg fs
      ∧ IIR2Coefficients.bandpass fs q dbg fs
        = IIR2Coefficients.bandpass (fs * 0.5) q dbg fs
      ∧ IIR2Coefficients.notch fs q dbg fs
        = IIR2Coefficients.notch (fs * 0.5) q dbg fs
      ∧ IIR2Coefficients.allpass fs q dbg fs
        = IIR2Coefficients.allpass (fs * 0.5) q dbg fs
      ∧ IIR2Coefficients.lowshelf fs q dbg fs
        = IIR2Coefficients.lowshelf (fs * 0.5) q dbg fs
      ∧ IIR2Coefficients.highshelf fs q dbg fs
        = IIR2Coefficients.highshelf (fs * 0.5) q dbg fs
      ∧ IIR2Coefficients.bell fs q dbg fs
        = IIR2Coefficients.bell (fs * 0.5) q dbg fs
      ∧ IIR1Coefficients.lowpass fs fs
        = IIR1Coefficients.lowpass (fs * 0.5) fs
      ∧ IIR1Coefficients.highpass fs fs
        = IIR1Coefficients.highpass (fs * 0.5) fs
      ∧ IIR1Coefficients.allpass fs fs
        = IIR1Coefficients.allpass (fs * 0.5) fs
      ∧ IIR1Coefficients.lowshelf fs dbg fs
        = IIR1Coefficients.lowshelf (fs * 0.5) dbg fs
      ∧ IIR1Coefficients.highshelf fs dbg fs
        = IIR1Coefficients.highshelf (fs * 0.5) dbg fs) := by
  refine ⟨?_, fun h => ?_⟩ <;> and_intros <;>
    simp only [IIR2Coefficients.lowpass, IIR2Coefficients.highpass,
      IIR2Coefficients.bandpass, IIR2Coefficients.notch, IIR2Coefficients.allpass,
      IIR2Coefficients.lowshelf, IIR2Coefficients.highshelf, IIR2Coefficients.bell,
      IIR1Coefficients.lowpass, IIR1Coefficients.highpass, IIR1Coefficients.allpass,
      IIR1Coefficients.lowshelf, IIR1Coefficients.highshelf] <;>
    first
      | rw [clamp_idem]
      | rw [clamp_nyquist fs h]

/-- Claim C6 witness: a low-pass stage at cutoff equal to the sample rate
equals one at half the sample rate. -/
theorem coefficient_constructors_clamp_witness :
    IIR2Coefficients.lowpass 2 1 0 2 = IIR2Coefficients.lowpass (2 * 0.5) 1 0 2 :=
  ((coefficient_constructors_clamp 1 1 0 2).2 (by norm_num)).1

/-- Rational bounds on the square root of two. -/
lemma sqrt_two_bounds : 1.4142135 < Real.sqrt 2 ∧ Real.sqrt 2 < 1.4142136 := by
  have h := Real.sq_sqrt (show (0:ℝ) ≤ 2 by norm_num)
  have h0 := Real.sqrt_nonneg 2
  constructor <;> nlinarith [h, h0]

/-- Rational bounds on the square root of five. -/
lemma sqrt_five_bounds : 2.2360679 < Real.sqrt 5 ∧ Real.sqrt 5 < 2.236068 := by
  have h := Real.sq_sqrt (show (0:ℝ) ≤ 5 by norm_num)
  have h0 := Real.sqrt_nonneg 5
  constructor <;> nlinarith [h, h0]

/-- Rational bounds on the square root of six. -/
lemma sqrt_six_bounds : 2.4494897 < Real.sqrt 6 ∧ Real.sqrt 6 < 2.4494898 := by
  have h := Real.sq_sqrt (show (0:ℝ) ≤ 6 by norm_num)
  have h0 := Real.sqrt_nonneg 6
  constructor <;> nlinarith [h, h0]

/-- The even-order branch of `butterworth_cascade_q` in closed form. -/
lemma bq_even (filter_order pole : ℕ) (h : filter_order % 2 = 0) :
    butterworth_cascade_q filter_order pole
      = 1 / (2 * Real.cos (((pole : ℝ) + 0.5) * Real.pi / (filter_order : ℝ))) := by
  simp only [butterworth_cascade_q]
  rw [if_pos h]
  have harg : Real.pi / (filter_order : ℝ) * 0.5
      + (pole : ℝ) * (Real.pi / (filter_order : ℝ))
      = ((pole : ℝ) + 0.5) * Real.pi / (filter_order : ℝ) := by ring
  rw [harg]

/-- The lone real pole of an odd-order cascade. -/
lemma bq_odd_zero (filter_order : ℕ) (h : filter_order % 2 = 1) :
    butterworth_cascade_q filter_order 0 = 0.5 := by
  simp only [butterworth_cascade_q]
  rw [if_neg (by omega)]
  simp

/-- The odd-order branch of `butterworth_cascade_q` for a positive pole
index in closed form. -/
lemma bq_odd (filter_order pole : ℕ) (h : filter_order % 2 = 1) (hp : 1 ≤ pole) :
    butterworth_cascade_q filter_order pole
      = 1 / (2 * Real.cos ((pole : ℝ) * Real.pi / (filter_order : ℝ))) := by
  simp only [butterworth_cascade_q]
  rw [if_neg (by omega), if_neg (by omega), Nat.cast_sub hp]
  have harg : Real.pi / (filter_order : ℝ)
      + ((pole : ℝ) - (1 : ℕ)) * (Real.pi / (filter_order : ℝ))
      = (pole : ℝ) * Real.pi / (filter_order : ℝ) := by push_cast; ring
  rw [harg]

/-- The fourth-order pole 0 value is within the printed tolerance of the
reference 0.5412. -/
lemma bq40_close : |butterworth_cascade_q 4 0 - 0.5412| < 0.0001 := by
  have hv : butterworth_cascade_q 4 0 = 1 / Real.sqrt (2 + Real.sqrt 2) := by
    rw [bq_even 4 0 (by norm_num)]
    rw [show (((0:ℕ):ℝ) + 0.5) * Real.pi / ((4:ℕ):ℝ) = Real.pi / 8 by push_cast; ring]
    rw [Real.cos_pi_div_eight]
    rw [show (2:ℝ) * (Real.sqrt (2 + Real.sqrt 2) / 2) = Real.sqrt (2 + Real.sqrt 2) by ring]
  obtain ⟨h2l, h2u⟩ := sqrt_two_bounds
  have hs2 : Real.sqrt (2 + Real.sqrt 2) ^ 2 = 2 + Real.sqrt 2 :=
    Real.sq_sqrt (by nlinarith)
  have hs0 : 0 ≤ Real.sqrt (2 + Real.sqrt 2) := Real.sqrt_nonneg _
  have hsl : 1.847759 < Real.sqrt (2 + Real.sqrt 2) := by nlinarith
  have hsu : Real.sqrt (2 + Real.sqrt 2) < 1.8477591 := by nlinarith
  rw [hv, abs_sub_lt_iff]
  constructor
  · have hlt : 1 / Real.sqrt (2 + Real.sqrt 2) < 0.5413 := by
      rw [div_lt_iff (by linarith)]
      nlinarith
    linarith
  · have hgt : (0.5411 : ℝ) < 1 / Real.sqrt (2 + Real.sqrt 2) := by
      rw [lt_div_iff (by linarith)]
      nlinarith
    linarith

/-- The fourth-order pole 1 value is within the printed tolerance of the
reference 1.3066. -/
lemma bq41_close : |butterworth_cascade_q 4 1 - 1.3066| < 0.0001 := by
  have hv : butterworth_cascade_q 4 1 = 1 / Real.sqrt (2 - Real.sqrt 2) := by
    rw [bq_even 4 1 (by norm_num)]
    rw [show (((1:ℕ):ℝ) + 0.5) * Real.pi / ((4:ℕ):ℝ)
      = Real.pi / 2 - Real.pi / 8 by push_cast; ring]
    rw [Real.cos_pi_div_two_sub, Real.sin_pi_div_eight]
    rw [show (2:ℝ) * (Real.sqrt (2 - Real.sqrt 2) / 2) = Real.sqrt (2 - Real.sqrt 2) by ring]
  obtain ⟨h2l, h2u⟩ := sqrt_two_bounds
  have hs2 : Real.sqrt (2 - Real.sqrt 2) ^ 2 = 2 - Real.sqrt 2 :=
    Real.sq_sqrt (by nlinarith)
  have hs0 : 0 ≤ Real.sqrt (2 - Real.sqrt 2) := Real.sqrt_nonneg _
  have hsl : 0.7653668 < Real.sqrt (2 - Real.sqrt 2) := by nlinarith
  have hsu : Real.sqrt (2 - Real.sqrt 2) < 0.765367 := by nlinarith
  rw [hv, abs_sub_lt_iff]
  constructor
  · have hlt : 1 / Real.sqrt (2 - Real.sqrt 2) < 1.3067 := by
      rw [div_lt_iff (by linarith)]
      nlinarith
    linarith
  · have hgt : (1.3065 : ℝ) < 1 / Real.sqrt (2 - Real.sqrt 2) := by
      rw [lt_div_iff (by linarith)]
      nlinarith
    linarith

/-- The fifth-order pole 1 value is within the printed tolerance of the
reference 0.6180. -/
lemma bq51_close : |butterworth_cascade_q 5 1 - 0.6180| < 0.0001 := by
  have hv : butterworth_cascade_q 5 1 = 2 / (1 + Real.sqrt 5) := by
    rw [bq_odd 5 1 (by norm_num) (by norm_num)]
    rw [show ((1:ℕ):ℝ) * Real.pi / ((5:ℕ):ℝ) = Real.pi / 5 by push_cast; ring]
    rw [Real.cos_pi_div_five]
    rw [show (2:ℝ) * ((1 + Real.sqrt 5) / 4) = (1 + Real.sqrt 5) / 2 by ring]
    rw [one_div_div]
  obtain ⟨h5l, h5u⟩ := sqrt_five_bounds
  rw [hv, abs_sub_lt_iff]
  constructor
  · have hlt : 2 / (1 + Real.sqrt 5) < 0.6181 := by
      rw [div_lt_iff (by linarith)]
      nlinarith
    linarith
  · have hgt : (0.6179 : ℝ) < 2 / (1 + Real.sqrt 5) := by
      rw [lt_div_iff (by linarith)]
      nlinarith
    linarith

/-- The cosine of the double of a fifth of a straight angle. -/
lemma cos_double_pi_div_five :
    Real.cos (2 * (Real.pi / 5)) = (Real.sqrt 5 - 1) / 4 := by
  rw [Real.cos_two_mul, Real.cos_pi_div_five]
  have h5 : Real.sqrt 5 ^ 2 = 5 := Real.sq_sqrt (by norm_num)
  linear_combination (1 / 8) * h5

/-- The fifth-order pole 2 value is within the printed tolerance of the
reference 1.6180. -/
lemma bq52_close : |butterworth_cascade_q 5 2 - 1.6180| < 0.0001 := by
  have hv : butterworth_cascade_q 5 2 = 2 / (Real.sqrt 5 - 1) := by
    rw [bq_odd 5 2 (by norm_num) (by norm_num)]
    rw [show ((2:ℕ):ℝ) * Real.pi / ((5:ℕ):ℝ) = 2 * (Real.pi / 5) by push_cast; ring]
    rw [cos_double_pi_div_five]
    rw [show (2:ℝ) * ((Real.sqrt 5 - 1) / 4) = (Real.sqrt 5 - 1) / 2 by ring]
    rw [one_div_div]
  obtain ⟨h5l, h5u⟩ := sqrt_five_bounds
  rw [hv, abs_sub_lt_iff]
  constructor
  · have hlt : 2 / (Real.sqrt 5 - 1) < 1.6181 := by
      rw [div_lt_iff (by linarith)]
      nlinarith
    linarith
  · have hgt : (1.6179 : ℝ) < 2 / (Real.sqrt 5 - 1) := by
      rw [lt_div_iff (by linarith)]
      nlinarith
    linarith

/-- The cosine of a twelfth of a straight angle. -/
lemma cos_pi_div_twelve_eq :
    Real.cos (Real.pi / 12) = (Real.sqrt 6 + Real.sqrt 2) / 4 := by
  rw [show Real.pi / 12 = Real.pi / 3 - Real.pi / 4 by ring]
  rw [Real.cos_sub, Real.cos_pi_div_three, Real.cos_pi_div_four,
    Real.sin_pi_div_three, Real.sin_pi_div_four]
  have h6 : Real.sqrt 6 = Real.sqrt 3 * Real.sqrt 2 := by
    rw [← Real.sqrt_mul (by norm_num : (0:ℝ) ≤ 3)]
    norm_num
  rw [h6]
  ring

/-- The cosine of five twelfths of a straight angle. -/
lemma cos_five_pi_div_twelve_eq :
    Real.cos (5 * Real.pi / 12) = (Real.sqrt 6 - Real.sqrt 2) / 4 := by
  rw [show 5 * Real.pi / 12 = Real.pi / 4 + Real.pi / 6 by ring]
  rw [Real.cos_add, Real.cos_pi_div_four, Real.cos_pi_div_six,
    Real.sin_pi_div_four, Real.sin_pi_div_six]
  have h6 : Real.sqrt 6 = Real.sqrt 2 * Real.sqrt 3 := by
    rw [← Real.sqrt_mul (by norm_num : (0:ℝ) ≤ 2)]
    norm_num
  rw [h6]
  ring

/-- The sixth-order pole 0 value is within the printed tolerance of the
reference 0.5176. -/
lemma bq60_close : |butterworth_cascade_q 6 0 - 0.5176| < 0.0001 := by
  have hv : butterworth_cascade_q 6 0 = 2 / (Real.sqrt 6 + Real.sqrt 2) := by
    rw [bq_even 6 0 (by norm_num)]
    rw [show (((0:ℕ):ℝ) + 0.5) * Real.pi / ((6:ℕ):ℝ) = Real.pi / 12 by push_cast; ring]
    rw [cos_pi_div_twelve_eq]
    rw [show (2:ℝ) * ((Real.sqrt 6 + Real.sqrt 2) / 4)
      = (Real.sqrt 6 + Real.sqrt 2) / 2 by ring]
    rw [one_div_div]
  obtain ⟨h2l, h2u⟩ := sqrt_two_bounds
  obtain ⟨h6l, h6u⟩ := sqrt_six_bounds
  rw [hv, abs_sub_lt_iff]
  constructor
  · have hlt : 2 / (Real.sqrt 6 + Real.sqrt 2) < 0.5177 := by
      rw [div_lt_iff (by linarith)]
      nlinarith
    linarith
  · have hgt : (0.5175 : ℝ) < 2 / (Real.sqrt 6 + Real.sqrt 2) := by
      rw [lt_div_iff (by linarith)]
      nlinarith
    linarith

/-- The sixth-order pole 1 value is within the printed tolerance of the
reference 0.7071. -/
lemma bq61_close : |butterworth_cascade_q 6 1 - 0.7071| < 0.0001 := by
  have hv : butterworth_cascade_q 6 1 = 1 / Real.sqrt 2 := by
    rw [bq_even 6 1 (by norm_num)]
    rw [show (((1:ℕ):ℝ) + 0.5) * Real.pi / ((6:ℕ):ℝ) = Real.pi / 4 by push_cast; ring]
    rw [Real.cos_pi_div_four]
    rw [show (2:ℝ) * (Real.sqrt 2 / 2) = Real.sqrt 2 by ring]
  obtain ⟨h2l, h2u⟩ := sqrt_two_bounds
  rw [hv, abs_sub_lt_iff]
  constructor
  · have hlt : 1 / Real.sqrt 2 < 0.7072 := by
      rw [div_lt_iff (by linarith)]
      nlinarith
    linarith
  · have hgt : (0.707 : ℝ) < 1 / Real.sqrt 2 := by
      rw [lt_div_iff (by linarith)]
      nlinarith
    linarith

/-- The sixth-order pole 2 value is within the printed tolerance of the
reference 1.9319. -/
lemma bq62_close : |butterworth_cascade_q 6 2 - 1.9319| < 0.0001 := by
  have hv : butterworth_cascade_q 6 2 = 2 / (Real.sqrt 6 - Real.sqrt 2) := by
    rw [bq_even 6 2 (by norm_num)]
    rw [show (((2:ℕ):ℝ) + 0.5) * Real.pi / ((6:ℕ):ℝ) = 5 * Real.pi / 12 by push_cast; ring]
    rw [cos_five_pi_div_twelve_eq]
    rw [show (2:ℝ) * ((Real.sqrt 6 - Real.sqrt 2) / 4)
      = (Real.sqrt 6 - Real.sqrt 2) / 2 by ring]
    rw [one_div_div]
  obtain ⟨h2l, h2u⟩ := sqrt_two_bounds
  obtain ⟨h6l, h6u⟩ := sqrt_six_bounds
  rw [hv, abs_sub_lt_iff]
  constructor
  · have hlt : 2 / (Real.sqrt 6 - Real.sqrt 2) < 1.932 := by
      rw [div_lt_iff (by linarith)]
      nlinarith
    linarith
  · have hgt : (1.9318 : ℝ) < 2 / (Real.sqrt 6 - Real.sqrt 2) := by
      rw [lt_div_iff (by linarith)]
      nlinarith
    linarith

/-- Claim C2: `butterworth_cascade_q` equals `1 / (2 cos ((pole + 0.5) π /
order))` for even order, returns exactly 0.5 for odd order at pole 0, and
equals `1 / (2 cos (pole π / order))` for odd order at pole at least 1; in
particular, it matches the four-decimal reference values for orders 4, 5
and 6 within a tolerance of one in the fourth decimal place. -/
theorem butterworth_cascade_q_closed_form :
    (∀ filter_order pole : ℕ, 1 ≤ filter_order →
      (filter_order % 2 = 0 →
        butterworth_cascade_q filter_order pole
          = 1 / (2 * Real.cos (((pole : ℝ) + 0.5) * Real.pi / (filter_order : ℝ))))
      ∧ (filter_order % 2 = 1 → pole = 0 →
        butterworth_cascade_q filter_order pole = 0.5)
      ∧ (filter_order % 2 = 1 → 1 ≤ pole →
        butterworth_cascade_q filter_order pole
          = 1 / (2 * Real.cos ((pole : ℝ) * Real.pi / (filter_order : ℝ)))))
    ∧ |butterworth_cascade_q 4 0 - 0.5412| < 0.0001
    ∧ |butterworth_cascade_q 4 1 - 1.3066| < 0.0001
    ∧ butterworth_cascade_q 5 0 = 0.5
    ∧ |butterworth_cascade_q 5 1 - 0.6180| < 0.0001
    ∧ |butterworth_cascade_q 5 2 - 1.6180| < 0.0001
    ∧ |butterworth_cascade_q 6 0 - 0.5176| < 0.0001
    ∧ |butterworth_cascade_q 6 1 - 0.7071| < 0.0001
    ∧ |butterworth_cascade_q 6 2 - 1.9319| < 0.0001 := by
  refine ⟨?_, bq40_close, bq41_close, bq_odd_zero 5 (by norm_num),
    bq51_close, bq52_close, bq60_close, bq61_close, bq62_close⟩
  intro filter_order pole _
  exact ⟨fun he => bq_even filter_order pole he,
    fun ho hp => hp ▸ bq_odd_zero filter_order ho,
    fun ho hp => bq_odd filter_order pole ho hp⟩

/-- Claim C2 witness: the closed form instantiated at order 4, pole 0. -/
theorem butterworth_cascade_q_closed_form_witness :
    butterworth_cascade_q 4 0
      = 1 / (2 * Real.cos ((((0:ℕ):ℝ) + 0.5) * Real.pi / ((4:ℕ):ℝ))) :=
  (butterworth_cascade_q_closed_form.1 4 0 (by norm_num)).1 (by norm_num)

end

end AudioFilters
